import Mathlib

/-!
Verification of the core of `nudge`, a peer-to-peer file transfer tool.

The development shallowly embeds the relevant Rust sources:

* `src/reliable_udp.rs` — the reliable datagram transport (`ReliableUdpSocket`):
  packet framing `[seq_hi, seq_lo, kind, payload…]`, the receive loop
  (`read` / `handle_packet` / `handle_packet_drop`) and the send path
  (`internal_write` / `wait_for_acknowledgment`).
* `src/commands/server_command.rs` — the rendezvous relay: the per-datagram
  dispatch (`handle_message`) and the three handlers.
* `src/utils/mod.rs` and `src/utils/socket.rs` — the hole-punch burst timing.
* `src/commands/get_command.rs` — the receiver driver's output-path choice.

Machine integers are modelled as `Nat` with explicit `% 2^w` where the Rust
code truncates (`as u16`) or wraps.  Socket receives are modelled by passing
the stream of incoming datagrams as an explicit list; socket sends are
collected in output lists and are assumed to succeed (I/O transmission
failures are environment failures outside the embedding).  External
collaborators (serde_json parsing, the RNG behind passphrase generation, the
wall clock) are passed in as explicit function or value parameters.
-/

namespace Nudge

/-- Packet kind discriminants of `PacketType` in `reliable_udp.rs`
(`Write = 0`, `Acknowledgment = 1`, `ResendRequest = 2`, `EndSession = 3`,
as produced by `as u8` on the fieldless enum). -/
def writeKind : Nat := 0

/-- Discriminant of `PacketType::Acknowledgment`. -/
def ackKind : Nat := 1

/-- Discriminant of `PacketType::ResendRequest`. -/
def resendKind : Nat := 2

/-- Discriminant of `PacketType::EndSession`. -/
def endKind : Nat := 3

/-- High byte of `(n as u16).to_be_bytes()`. -/
def be16hi (n : Nat) : Nat := n % 65536 / 256

/-- Low byte of `(n as u16).to_be_bytes()`. -/
def be16lo (n : Nat) : Nat := n % 256

/-- The state of `ReliableUdpSocket` (minus the raw socket): the
`last_transmitted` map, and the two `u64` packet counters.  The counters are
kept as unbounded `Nat`; every use in the code first truncates with `as u16`,
modelled by `% 65536`. -/
structure RUdpState where
  lastTransmitted : List (Nat × List Nat)
  sentPacketsCount : Nat
  receivedPacketsCount : Nat
deriving Repr, DecidableEq

/-- Lookup in a `HashMap` modelled as an association list with unique keys
(`insert` removes any previous binding, see `mapInsert`). -/
def mapLookup {κ α : Type} [BEq κ] (k : κ) (m : List (κ × α)) : Option α :=
  (m.find? (fun kv => kv.1 == k)).map (·.2)

/-- `HashMap::remove`: drop the binding of `k`. -/
def mapErase {κ α : Type} [BEq κ] (k : κ) (m : List (κ × α)) : List (κ × α) :=
  m.filter (fun kv => kv.1 != k)

/-- `HashMap::insert`: bind `k` to `v`, replacing any previous binding. -/
def mapInsert {κ α : Type} [BEq κ] (k : κ) (v : α) (m : List (κ × α)) : List (κ × α) :=
  (k, v) :: mapErase k m

/-- Result of one `handle_packet` call: the successor state, the
`is_catching_up` flag, the control datagrams sent back (ACK / RESEND), the
final value of the `should_retry` flag, and the delivered payload length
(`received_data.1`, set only on in-order delivery). -/
structure HandlePacketResult where
  state : RUdpState
  catchingUp : Bool
  sends : List (List Nat)
  shouldRetry : Bool
  delivered : Option Nat
deriving Repr, DecidableEq

/-- Shallow embedding of `ReliableUdpSocket::handle_packet` (together with
`handle_packet_drop`).  `b0 b1` are the two sequence bytes of the received
datagram (`packet_id = u16::from_be_bytes([b0, b1])`), `b2` its kind byte and
`bytesRead` the datagram length.  The caller (`read`) guarantees
`bytesRead ≥ 3`. -/
def handlePacket (st : RUdpState) (isCatchingUp : Bool) (b0 b1 b2 bytesRead : Nat) :
    HandlePacketResult :=
  let packetId := b0 * 256 + b1
  let expected := st.receivedPacketsCount % 65536
  -- `if packet_id <= self.received_packets_count as u16 { send ACK }`
  let acks : List (List Nat) := if packetId ≤ expected then [[b0, b1, ackKind]] else []
  -- `handle_packet_drop`: request resend of the expected sequence
  let resends : List (List Nat) :=
    if expected < packetId then
      [[be16hi st.receivedPacketsCount, be16lo st.receivedPacketsCount, resendKind]]
    else []
  let st' :=
    if packetId = expected then
      { st with receivedPacketsCount := st.receivedPacketsCount + 1 }
    else st
  { state := st'
    catchingUp := if expected < packetId then true else isCatchingUp
    sends := acks ++ resends
    shouldRetry := !(packetId == expected) && !(b2 == endKind)
    delivered := if packetId = expected then some (bytesRead - 3) else none }

/-- The receive loop of `ReliableUdpSocket::read`, driven by the explicit
list of incoming datagrams (each one the byte string filled in by
`socket.recv`).  Returns `none` when the stream is exhausted while the loop
would still be retrying (the real code would block on `recv`); otherwise the
state after the loop, the delivered byte count (`received_data.1`, initially
`0`), and all control datagrams sent. -/
def readLoop (st : RUdpState) (isCatchingUp : Bool) (out : Nat)
    (sends : List (List Nat)) :
    List (List Nat) → Option (RUdpState × Nat × List (List Nat))
  | [] => none
  | d :: rest =>
    if d.length < 3 then readLoop st isCatchingUp out sends rest
    else
      let r := handlePacket st isCatchingUp (d.getD 0 0) (d.getD 1 0) (d.getD 2 0) d.length
      let out' := (r.delivered).getD out
      if r.shouldRetry then readLoop r.state r.catchingUp out' (sends ++ r.sends) rest
      else some (r.state, out', sends ++ r.sends)

/-- Errors of `NudgeError` (`error.rs`) reachable from the embedded code. -/
inductive NudgeErr where
  | bufferSizeLimitExceeded (n : Nat)
  | dataPacketLimitExceeded (n : Nat)
  | passphraseGenerationError
  | passphraseNotFound
  | jsonParseError
  | unknownCommand
deriving Repr, DecidableEq

instance {ε α : Type} [DecidableEq ε] [DecidableEq α] : DecidableEq (Except ε α) :=
  fun x y =>
    match x, y with
    | .error e, .error f =>
      if h : e = f then isTrue (congrArg Except.error h)
      else isFalse (fun hh => h (Except.error.inj hh))
    | .error _, .ok _ => isFalse (fun hh => Except.noConfusion hh)
    | .ok _, .error _ => isFalse (fun hh => Except.noConfusion hh)
    | .ok a, .ok b =>
      if h : a = b then isTrue (congrArg Except.ok h)
      else isFalse (fun hh => h (Except.ok.inj hh))

/-- Shallow embedding of `ReliableUdpSocket::read`: the buffer-size gate
followed by the receive loop (state starts with `is_catching_up = false` and
`received_data = (vec![], 0)`). -/
def rudpRead (st : RUdpState) (bufferLen : Nat) (incoming : List (List Nat)) :
    Except NudgeErr (Option (RUdpState × Nat × List (List Nat))) :=
  if bufferLen > 0xfffc then .error (.bufferSizeLimitExceeded bufferLen)
  else .ok (readLoop st false 0 [] incoming)

/-- How `wait_for_acknowledgment` terminated: `immediate` when the wait loop
was never entered (`wait_for_ack` started out `false`), `acked` when the ACK
for the just-sent packet arrived, `exhausted` when the modelled incoming
stream ran out while the loop was still waiting. -/
inductive WaitOutcome where
  | immediate
  | acked
  | exhausted
deriving Repr, DecidableEq

/-- The receive loop inside `wait_for_acknowledgment`, over the explicit list
of incoming reply buffers (each with its received byte count as length).
Replies that are not exactly 3 bytes are ignored.  An `ACK` removes its
sequence from `last_transmitted`; an `ACK` for `packet_index` ends the wait
and clears the whole map.  A `RESEND` request re-sends a stored packet but
leaves the map unchanged, as does an unrecognized kind byte. -/
def waitLoop (packetIndex : Nat) (lt : List (Nat × List Nat)) :
    List (List Nat) → List (Nat × List Nat) × WaitOutcome
  | [] => (lt, .exhausted)
  | m :: rest =>
    if m.length ≠ 3 then waitLoop packetIndex lt rest
    else if m.getD 2 0 = ackKind then
      (if m.getD 0 0 * 256 + m.getD 1 0 = packetIndex then ([], .acked)
       else waitLoop packetIndex (mapErase (m.getD 0 0 * 256 + m.getD 1 0) lt) rest)
    else waitLoop packetIndex lt rest

/-- Shallow embedding of `wait_for_acknowledgment`: the loop above is entered
exactly when `packet_index == 0xffff || flush` holds; otherwise the call
returns immediately with the map untouched. -/
def waitForAck (packetIndex : Nat) (flush : Bool) (lt : List (Nat × List Nat))
    (incoming : List (List Nat)) : List (Nat × List Nat) × WaitOutcome :=
  if packetIndex = 0xffff ∨ flush = true then waitLoop packetIndex lt incoming
  else (lt, .immediate)

/-- Shallow embedding of `internal_write` composed with `transmit_packet` and
`wait_for_acknowledgment`: the size gate, the framing
`[seq_hi, seq_lo, kind, data…]` with `seq = sent_packets_count as u16`, the
counter increment, the insertion into `last_transmitted`, and the
acknowledgment wait.  The pacing `delay` and the `exit_on_lost` timeout flag
only affect real time and are carried for shape only. -/
def internalWrite (st : RUdpState) (data : List Nat) (packetType : Nat)
    (flush exitOnLost : Bool) (delay : Nat) (incoming : List (List Nat)) :
    Except NudgeErr (RUdpState × List Nat × WaitOutcome) :=
  if data.length > 0xfffc then .error (.dataPacketLimitExceeded data.length)
  else
    let packetIndex := st.sentPacketsCount % 65536
    let dataBuffer :=
      be16hi st.sentPacketsCount :: be16lo st.sentPacketsCount :: packetType :: data
    let inserted := mapInsert packetIndex dataBuffer st.lastTransmitted
    let waited := waitForAck packetIndex flush inserted incoming
    .ok ({ st with sentPacketsCount := st.sentPacketsCount + 1,
                   lastTransmitted := waited.1 },
         dataBuffer, waited.2)

/-- `write_and_flush`: `internal_write` with `PacketType::Write` and
`exit_on_lost = false`. -/
def writeAndFlush (st : RUdpState) (data : List Nat) (shouldFlush : Bool)
    (delay : Nat) (incoming : List (List Nat)) :
    Except NudgeErr (RUdpState × List Nat × WaitOutcome) :=
  internalWrite st data writeKind shouldFlush false delay incoming

/-- `FileInfo` of `models.rs` (fields in source order; the two
`AnonymousString` fields become `Option String`, the socket address a plain
string). -/
structure FileInfo where
  fileSize : Nat
  fileName : String
  fileHash : Option String
  senderHost : Option String
  createdAt : Nat
  senderAddr : String
deriving Repr, DecidableEq

/-- `S2XRequestPassphraseMessage` of `models.rs`. -/
structure S2XRequestPassphraseMessage where
  fileSize : Nat
  fileName : String
  fileHash : Option String
  senderHost : Option String
deriving Repr, DecidableEq

/-- `R2XRequestFileInfoMessage` of `models.rs`. -/
structure R2XRequestFileInfoMessage where
  passphrase : String
deriving Repr, DecidableEq

/-- `R2XRequestSenderConnectionMessage` of `models.rs`. -/
structure R2XRequestSenderConnectionMessage where
  passphrase : String
  fileHash : Option String
  receiverHost : Option String
deriving Repr, DecidableEq

/-- The datagrams the relay can send back: `X2S_PPM`, `X2R_AFI`, `X2S_SCON`
and the `ERROR <reason>\n` reply (whose full text is kept, matching
`send_error`). -/
inductive RelayMsg where
  | ppm (passphrase : String)
  | afi (info : FileInfo)
  | scon (receiverAddr : String) (receiverHost : Option String)
  | errorReply (text : String)
deriving Repr, DecidableEq

/-- The relay's `client_map`: live passphrases to pending file offers. -/
abbrev ClientMap : Type := List (String × FileInfo)

/-- Shallow embedding of `handle_sender_request_passphrase_message`.
`parseS2X` stands for `serde_json::from_str` on the payload (`none` = parse
error), `gen` for the `passphrase_generator.generate()` call and `now` for
`current_unix_millis()`.  Returns the map after the call (the handler takes
`&mut` on it) together with the result: the datagrams sent on success, or
the error.  There is no collision check: the minted passphrase is inserted
unconditionally. -/
def handleSenderRequestPassphrase
    (parseS2X : List Nat → Option S2XRequestPassphraseMessage)
    (gen : Option String) (now : Nat) (addr : String)
    (payload : List Nat) (clientMap : ClientMap) :
    ClientMap × Except NudgeErr (List (String × RelayMsg)) :=
  match parseS2X payload with
  | none => (clientMap, .error .jsonParseError)
  | some msg =>
    match gen with
    | none => (clientMap, .error .passphraseGenerationError)
    | some passphrase =>
      (mapInsert passphrase
        { fileSize := msg.fileSize, fileName := msg.fileName,
          fileHash := msg.fileHash, senderHost := msg.senderHost,
          createdAt := now, senderAddr := addr } clientMap,
       .ok [(addr, .ppm passphrase)])

/-- Shallow embedding of `handle_receiver_request_file_info` (the map is
taken immutably; it is returned unchanged for uniformity). -/
def handleReceiverRequestFileInfo
    (parseRFI : List Nat → Option R2XRequestFileInfoMessage)
    (addr : String) (payload : List Nat) (clientMap : ClientMap) :
    ClientMap × Except NudgeErr (List (String × RelayMsg)) :=
  match parseRFI payload with
  | none => (clientMap, .error .jsonParseError)
  | some msg =>
    match mapLookup msg.passphrase clientMap with
    | some fileInfo => (clientMap, .ok [(addr, .afi fileInfo)])
    | none => (clientMap, .error .passphraseNotFound)

/-- Shallow embedding of `handle_receiver_accept`: look the passphrase up
(absent ⇒ `PassphraseNotFound`); if the stored offer's `file_hash` equals
the quoted one, remove the offer and tell the stored sender address to
connect to the receiver, else `PassphraseNotFound` with the map untouched. -/
def handleReceiverAccept
    (parseRSC : List Nat → Option R2XRequestSenderConnectionMessage)
    (addr : String) (payload : List Nat) (clientMap : ClientMap) :
    ClientMap × Except NudgeErr (List (String × RelayMsg)) :=
  match parseRSC payload with
  | none => (clientMap, .error .jsonParseError)
  | some msg =>
    match mapLookup msg.passphrase clientMap with
    | none => (clientMap, .error .passphraseNotFound)
    | some fileInfo =>
      if fileInfo.fileHash = msg.fileHash then
        (mapErase msg.passphrase clientMap,
         .ok [(fileInfo.senderAddr, .scon addr msg.receiverHost)])
      else (clientMap, .error .passphraseNotFound)

/-- UTF-8 continuation byte test (`0x80..=0xBF`). -/
def utf8Cont (b : Nat) : Bool := 0x80 ≤ b && b ≤ 0xBF

/-- Standard UTF-8 validation and decoding to code points, as performed by
`str::from_utf8` in the relay loop: rejects overlong forms (lead bytes
`0x80..=0xC1`, short second bytes after `0xE0`/`0xF0`), surrogates (`0xED`
with a second byte above `0x9F`) and code points above `U+10FFFF` (lead
bytes `0xF5..`, `0xF4` with a second byte above `0x8F`). -/
def utf8Decode : List Nat → Option (List Nat)
  | [] => some []
  | b :: rest =>
    if b < 0x80 then (utf8Decode rest).map (b :: ·)
    else if b < 0xC2 then none
    else if b < 0xE0 then
      match rest with
      | b1 :: rest2 =>
        if utf8Cont b1 then
          (utf8Decode rest2).map (((b - 0xC0) * 64 + (b1 - 0x80)) :: ·)
        else none
      | [] => none
    else if b < 0xF0 then
      match rest with
      | b1 :: b2 :: rest2 =>
        if (if b = 0xE0 then decide (0xA0 ≤ b1) && decide (b1 ≤ 0xBF)
            else if b = 0xED then decide (0x80 ≤ b1) && decide (b1 ≤ 0x9F)
            else utf8Cont b1) && utf8Cont b2 then
          (utf8Decode rest2).map
            (((b - 0xE0) * 4096 + (b1 - 0x80) * 64 + (b2 - 0x80)) :: ·)
        else none
      | _ => none
    else if b < 0xF5 then
      match rest with
      | b1 :: b2 :: b3 :: rest2 =>
        if (if b = 0xF0 then decide (0x90 ≤ b1) && decide (b1 ≤ 0xBF)
            else if b = 0xF4 then decide (0x80 ≤ b1) && decide (b1 ≤ 0x8F)
            else utf8Cont b1) && utf8Cont b2 && utf8Cont b3 then
          (utf8Decode rest2).map
            (((b - 0xF0) * 262144 + (b1 - 0x80) * 4096 +
              (b2 - 0x80) * 64 + (b3 - 0x80)) :: ·)
        else none
      | _ => none
    else none

/-- Unicode `White_Space` code points, the set behind Rust's
`char::is_whitespace` used by `split_whitespace`. -/
def rustWhitespace (c : Nat) : Bool :=
  c == 9 || c == 10 || c == 11 || c == 12 || c == 13 || c == 32 ||
  c == 0x85 || c == 0xA0 || c == 0x1680 ||
  (0x2000 ≤ c && c ≤ 0x200A) || c == 0x2028 || c == 0x2029 ||
  c == 0x202F || c == 0x205F || c == 0x3000

/-- `received_str.split_whitespace().next()`: skip leading whitespace, take
the first maximal run of non-whitespace; `none` when the string is empty or
all whitespace. -/
def firstToken (cps : List Nat) : Option (List Nat) :=
  let t := (cps.dropWhile rustWhitespace).takeWhile (fun c => !rustWhitespace c)
  if t.isEmpty then none else some t

/-- Code points of the tag `S2X_RP`. -/
def s2xRpTag : List Nat := [83, 50, 88, 95, 82, 80]

/-- Code points of the tag `R2X_RFI`. -/
def r2xRfiTag : List Nat := [82, 50, 88, 95, 82, 70, 73]

/-- Code points of the tag `R2X_RSC`. -/
def r2xRscTag : List Nat := [82, 50, 88, 95, 82, 83, 67]

/-- Byte slicing `&received_str[i..]`: `none` models the Rust panic, raised
when `i` exceeds the byte length or falls inside a multi-byte character (on
valid UTF-8 a byte index is a char boundary exactly when it is the length or
does not point at a continuation byte). -/
def sliceFrom (bytes : List Nat) (i : Nat) : Option (List Nat) :=
  if bytes.length < i then none
  else if i < bytes.length then
    if utf8Cont (bytes.getD i 0) then none else some (bytes.drop i)
  else some (bytes.drop i)

/-- Result of `handle_message` on one datagram: the reply datagrams on
success, the error (to be turned into an `ERROR` reply by the loop), or a
panic of the handler (out-of-bounds payload slice), which kills the relay
process. -/
inductive HandleResult where
  | sent (sends : List (String × RelayMsg))
  | failed (e : NudgeErr)
  | panicked
deriving Repr, DecidableEq

/-- Shallow embedding of `handle_message`: dispatch on the first
whitespace-delimited token, slice the payload at the fixed byte offset
(7 for `S2X_RP`, 8 for the receiver tags) and run the matching handler;
any other (or absent) token is `UnknownCommand`. -/
def handleMessage
    (parseS2X : List Nat → Option S2XRequestPassphraseMessage)
    (parseRFI : List Nat → Option R2XRequestFileInfoMessage)
    (parseRSC : List Nat → Option R2XRequestSenderConnectionMessage)
    (gen : Option String) (now : Nat) (addr : String)
    (bytes : List Nat) (clientMap : ClientMap) : ClientMap × HandleResult :=
  let cps := (utf8Decode bytes).getD []
  match firstToken cps with
  | none => (clientMap, .failed .unknownCommand)
  | some t =>
    if t = s2xRpTag then
      match sliceFrom bytes 7 with
      | none => (clientMap, .panicked)
      | some payload =>
        match handleSenderRequestPassphrase parseS2X gen now addr payload clientMap with
        | (m, .ok s) => (m, .sent s)
        | (m, .error e) => (m, .failed e)
    else if t = r2xRfiTag then
      match sliceFrom bytes 8 with
      | none => (clientMap, .panicked)
      | some payload =>
        match handleReceiverRequestFileInfo parseRFI addr payload clientMap with
        | (m, .ok s) => (m, .sent s)
        | (m, .error e) => (m, .failed e)
    else if t = r2xRscTag then
      match sliceFrom bytes 8 with
      | none => (clientMap, .panicked)
      | some payload =>
        match handleReceiverAccept parseRSC addr payload clientMap with
        | (m, .ok s) => (m, .sent s)
        | (m, .error e) => (m, .failed e)
    else (clientMap, .failed .unknownCommand)

/-- The display strings of `NudgeError` (`thiserror` attributes in
`error.rs`), as used by the relay's `ERROR` replies. -/
def errString : NudgeErr → String
  | .bufferSizeLimitExceeded n =>
    s!"Buffer size exceeds the maximum allowed limit of 65532 bytes. Received: {n} bytes."
  | .dataPacketLimitExceeded n =>
    s!"Data packet exceeds the maximum allowed limit of 65532 bytes. Received: {n} bytes."
  | .passphraseGenerationError => "Failed to generate passphrase"
  | .passphraseNotFound => "Passphrase not found"
  | .jsonParseError => "Failed to parse JSON"
  | .unknownCommand => "Unknown command"

/-- Outcome of one iteration of the relay's `run` loop on a received
datagram: the map afterwards, the datagrams sent, and whether the loop is
still alive (`false` only when the handler panicked). -/
structure RelayStepResult where
  clientMap : ClientMap
  sends : List (String × RelayMsg)
  alive : Bool
deriving Repr, DecidableEq

/-- One iteration of the relay loop body of `run` on a received datagram:
a `str::from_utf8` failure is logged and skipped (`continue`) with no reply;
otherwise `handle_message` runs, and on error the loop sends
`ERROR <reason>\n` (per `send_error`) to the originating endpoint and
continues. -/
def relayStep
    (parseS2X : List Nat → Option S2XRequestPassphraseMessage)
    (parseRFI : List Nat → Option R2XRequestFileInfoMessage)
    (parseRSC : List Nat → Option R2XRequestSenderConnectionMessage)
    (gen : Option String) (now : Nat) (addr : String)
    (bytes : List Nat) (clientMap : ClientMap) : RelayStepResult :=
  match utf8Decode bytes with
  | none => ⟨clientMap, [], true⟩
  | some _ =>
    match handleMessage parseS2X parseRFI parseRSC gen now addr bytes clientMap with
    | (m, .sent s) => ⟨m, s, true⟩
    | (m, .failed e) =>
      ⟨m, [(addr, .errorReply ("ERROR " ++ errString e ++ "\n"))], true⟩
    | (_, .panicked) => ⟨clientMap, [], false⟩

/-- The per-iteration sleep of the hole-punch burst in `init_socket`
(`utils/mod.rs`): `50 - (current_unix_millis() - start_time)` computed in
`u64`, then `.max(0)` (an identity on an unsigned value).  The subtraction
is modelled with release-mode wrapping semantics; in a debug build the same
expression panics with an overflow for `elapsed > 50`. -/
def initSocketSleepMs (elapsed : Nat) : Nat :=
  max ((50 + 2 ^ 64 - elapsed % 2 ^ 64) % 2 ^ 64) 0

/-- `file_name.split("/")` of the receiver driver, left fold of Rust's
`str::split` with a one-character separator: splitting the empty string
yields one empty segment, and every separator occurrence starts a new
segment. -/
def splitSlash : List Char → List (List Char)
  | [] => [[]]
  | c :: rest =>
    match splitSlash rest with
    | [] => [[]]
    | seg :: segs => if c = '/' then [] :: seg :: segs else (c :: seg) :: segs

/-- `file_name.split("/").last()` with the `.expect` unwrap (the iterator is
never empty, so the default is never used). -/
def lastSegment (s : List Char) : List Char := ((splitSlash s).getLast?).getD []

/-- The output path choice of `get_command.rs`: the explicit `--out-file`
when given, else the last `/`-separated segment of the announced
`file_name`. -/
def chosenOutFileName (outFile : Option String) (fileName : String) : String :=
  match outFile with
  | some o => o
  | none => ⟨lastSegment fileName.data⟩

end Nudge

namespace Nudge

/-- claim C1 — in `handle_packet`, a payload is delivered (the output length
is set) exactly when the datagram's 16-bit sequence equals the expected
sequence `received_packets_count as u16`; a datagram whose sequence is at or
below the last delivered one (strictly below the expected counter) is
re-acknowledged with an ACK carrying its own sequence bytes and nothing is
delivered nor any state changed; a datagram whose sequence is above the
expected one triggers a RESEND request carrying the expected sequence and
`received_packets_count` does not advance. -/
theorem handle_packet_contiguous_delivery
    (st : RUdpState) (c : Bool) (b0 b1 b2 len : Nat)
    (hb0 : b0 < 256) (hb1 : b1 < 256) (hlen : 3 ≤ len) :
    ((handlePacket st c b0 b1 b2 len).delivered.isSome ↔
        b0 * 256 + b1 = st.receivedPacketsCount % 65536) ∧
    (b0 * 256 + b1 = st.receivedPacketsCount % 65536 →
      (handlePacket st c b0 b1 b2 len).state.receivedPacketsCount =
        st.receivedPacketsCount + 1 ∧
      (handlePacket st c b0 b1 b2 len).delivered = some (len - 3)) ∧
    (b0 * 256 + b1 < st.receivedPacketsCount % 65536 →
      (handlePacket st c b0 b1 b2 len).sends = [[b0, b1, ackKind]] ∧
      (handlePacket st c b0 b1 b2 len).delivered = none ∧
      (handlePacket st c b0 b1 b2 len).state = st) ∧
    (st.receivedPacketsCount % 65536 < b0 * 256 + b1 →
      (handlePacket st c b0 b1 b2 len).sends =
        [[be16hi st.receivedPacketsCount, be16lo st.receivedPacketsCount, resendKind]] ∧
      (handlePacket st c b0 b1 b2 len).delivered = none ∧
      (handlePacket st c b0 b1 b2 len).state = st) := by
  by_cases heq : b0 * 256 + b1 = st.receivedPacketsCount % 65536
  · refine ⟨?_, ?_, ?_, ?_⟩
    · simp [handlePacket, heq]
    · intro _
      simp [handlePacket, heq]
    · intro hlt; omega
    · intro hlt; omega
  · refine ⟨?_, ?_, ?_, ?_⟩
    · simp [handlePacket, heq]
    · intro h; exact absurd h heq
    · intro hlt
      have hle : b0 * 256 + b1 ≤ st.receivedPacketsCount % 65536 := Nat.le_of_lt hlt
      have hnlt : ¬ st.receivedPacketsCount % 65536 < b0 * 256 + b1 :=
        Nat.not_lt_of_ge hle
      simp [handlePacket, heq, hle, hnlt]
    · intro hlt
      have hnle : ¬ b0 * 256 + b1 ≤ st.receivedPacketsCount % 65536 :=
        Nat.not_le_of_gt hlt
      simp [handlePacket, heq, hnle, hlt]

/-- Witness for C1: a concrete evaluation of the theorem at sequence bytes
`[0, 5]` against a receiver expecting sequence `5`. -/
theorem handle_packet_contiguous_delivery_witness :
    (0 : Nat) < 256 ∧ (5 : Nat) < 256 ∧ (3 : Nat) ≤ 7 ∧
    ((handlePacket ⟨[], 0, 5⟩ false 0 5 0 7).delivered.isSome ↔
      (0 * 256 + 5 : Nat) = 5 % 65536) := by
  refine ⟨by decide, by decide, by decide, ?_⟩
  exact (handle_packet_contiguous_delivery ⟨[], 0, 5⟩ false 0 5 0 7
    (by decide) (by decide) (by decide)).1

/-- Helper: the acknowledgment wait loop, once entered, never reports that it
was skipped. -/
theorem waitLoop_not_immediate (pi : Nat) (lt : List (Nat × List Nat))
    (msgs : List (List Nat)) : (waitLoop pi lt msgs).2 ≠ .immediate := by
  induction msgs generalizing lt with
  | nil => simp [waitLoop]
  | cons m rest ih =>
    simp only [waitLoop]
    split
    · exact ih lt
    · split
      · split
        · simp
        · exact ih _
      · exact ih lt

/-- claim C2 — `write_and_flush` enters the acknowledgment wait if and only
if `flush` is true or the just-sent sequence (`sent_packets_count as u16`)
equals `0xFFFF`; while waiting, an ACK removes its sequence from the
`last_transmitted` map and the loop keeps waiting, and an ACK whose sequence
equals the just-sent one ends the wait and clears the whole map. -/
theorem write_and_flush_ack_wait
    (st : RUdpState) (data : List Nat) (flush : Bool) (delay : Nat)
    (incoming : List (List Nat)) (hlen : data.length ≤ 0xfffc) :
    (∀ res, writeAndFlush st data flush delay incoming = .ok res →
      (res.2.2 = WaitOutcome.immediate ↔
        ¬(st.sentPacketsCount % 65536 = 0xffff ∨ flush = true))) ∧
    (∀ lt a rest, a < 65536 → a ≠ st.sentPacketsCount % 65536 →
      waitLoop (st.sentPacketsCount % 65536) lt ([a / 256, a % 256, ackKind] :: rest) =
        waitLoop (st.sentPacketsCount % 65536) (mapErase a lt) rest) ∧
    (∀ lt rest,
      waitLoop (st.sentPacketsCount % 65536) lt
        ([st.sentPacketsCount % 65536 / 256, st.sentPacketsCount % 65536 % 256,
          ackKind] :: rest) =
        ([], WaitOutcome.acked)) := by
  have hnot : ¬ data.length > 0xfffc := not_lt.mpr hlen
  refine ⟨?_, ?_, ?_⟩
  · intro res hres
    by_cases hcond : st.sentPacketsCount % 65536 = 0xffff ∨ flush = true
    · have : res.2.2 ≠ WaitOutcome.immediate := by
        simp only [writeAndFlush, internalWrite, if_neg hnot, waitForAck,
          if_pos hcond] at hres
        rw [← Except.ok.inj hres]
        exact waitLoop_not_immediate _ _ _
      simp [this, hcond]
    · have : res.2.2 = WaitOutcome.immediate := by
        simp only [writeAndFlush, internalWrite, if_neg hnot, waitForAck,
          if_neg hcond] at hres
        rw [← Except.ok.inj hres]
      simp [this, hcond]
  · intro lt a rest ha hne
    have hid : a / 256 * 256 + a % 256 = a := by omega
    simp [waitLoop, ackKind, hid, hne]
  · intro lt rest
    have hid : st.sentPacketsCount % 65536 / 256 * 256 +
        st.sentPacketsCount % 65536 % 256 = st.sentPacketsCount % 65536 := by
      omega
    simp [waitLoop, ackKind, hid]

/-- Witness for C2: writing two bytes with `flush = false` from a fresh
socket (sequence 0) returns immediately. -/
theorem write_and_flush_ack_wait_witness :
    ([1, 2] : List Nat).length ≤ 0xfffc ∧
    (WaitOutcome.immediate = WaitOutcome.immediate ↔
      ¬((0 : Nat) % 65536 = 0xffff ∨ false = true)) := by
  refine ⟨by decide, ?_⟩
  exact (write_and_flush_ack_wait ⟨[], 0, 0⟩ [1, 2] false 0 [] (by decide)).1
    (⟨[(0, [0, 0, 0, 1, 2])], 1, 0⟩, [0, 0, 0, 1, 2], WaitOutcome.immediate) rfl

/-- claim C7 — `write_and_flush` rejects payloads longer than 65532 bytes
with `DataPacketLimitExceeded` carrying the offending length (sending
nothing: the error is raised before any datagram is framed), `read` rejects
buffers longer than 65532 bytes with `BufferSizeLimitExceeded` carrying the
offending length (receiving nothing), and at or below 65532 bytes neither
error is returned. -/
theorem size_limits
    (st : RUdpState) (data : List Nat) (flush : Bool) (delay bufLen : Nat)
    (incoming ds : List (List Nat)) :
    (data.length > 65532 →
      writeAndFlush st data flush delay incoming =
        .error (.dataPacketLimitExceeded data.length)) ∧
    (bufLen > 65532 →
      rudpRead st bufLen ds = .error (.bufferSizeLimitExceeded bufLen)) ∧
    (data.length ≤ 65532 →
      ∃ r, writeAndFlush st data flush delay incoming = .ok r) ∧
    (bufLen ≤ 65532 →
      ∃ r, rudpRead st bufLen ds = .ok r) := by
  refine ⟨?_, ?_, ?_, ?_⟩
  · intro h
    simp only [writeAndFlush, internalWrite]
    rw [if_pos (by omega)]
  · intro h
    simp only [rudpRead]
    rw [if_pos (by omega)]
  · intro h
    simp only [writeAndFlush, internalWrite]
    rw [if_neg (by omega)]
    exact ⟨_, rfl⟩
  · intro h
    simp only [rudpRead]
    rw [if_neg (by omega)]
    exact ⟨_, rfl⟩

/-- Witness for C7: a 65533-byte read buffer is rejected with the error
carrying the length, and a 2-byte write succeeds. -/
theorem size_limits_witness :
    ((65533 : Nat) > 65532 ∧
      rudpRead ⟨[], 0, 0⟩ 65533 [] = .error (.bufferSizeLimitExceeded 65533)) ∧
    (([1, 2] : List Nat).length ≤ 65532 ∧
      ∃ r, writeAndFlush ⟨[], 0, 0⟩ [1, 2] false 0 [] = .ok r) := by
  refine ⟨⟨by decide, ?_⟩, ⟨by decide, ?_⟩⟩
  · exact (size_limits ⟨[], 0, 0⟩ [] false 0 65533 [] []).2.1 (by decide)
  · exact (size_limits ⟨[], 0, 0⟩ [1, 2] false 0 0 [] []).2.2.1 (by decide)

/-- Helper for C10: while every processed datagram is out of order (sequence
different from the expected one) and not an END, the read loop neither
changes the state nor the delivered count; when a 3-byte END datagram with a
sequence above the expected one is reached, the loop stops there and returns
the unchanged state with a delivered count of 0. -/
theorem readLoop_end_zero
    (st : RUdpState) (dEnd : List Nat)
    (hlen : dEnd.length = 3) (hkind : dEnd.getD 2 0 = endKind)
    (hgt : st.receivedPacketsCount % 65536 < dEnd.getD 0 0 * 256 + dEnd.getD 1 0) :
    ∀ (pre : List (List Nat)),
      (∀ d ∈ pre, 3 ≤ d.length →
        d.getD 0 0 * 256 + d.getD 1 0 ≠ st.receivedPacketsCount % 65536 ∧
        d.getD 2 0 ≠ endKind) →
      ∀ (rest : List (List Nat)) (c : Bool) (acc : List (List Nat)),
        ∃ sends, readLoop st c 0 acc (pre ++ dEnd :: rest) = some (st, 0, sends) := by
  have hne : dEnd.getD 0 0 * 256 + dEnd.getD 1 0 ≠ st.receivedPacketsCount % 65536 := by
    omega
  intro pre
  induction pre with
  | nil =>
    intro _ rest c acc
    refine ⟨acc ++ (handlePacket st c (dEnd.getD 0 0) (dEnd.getD 1 0)
      (dEnd.getD 2 0) dEnd.length).sends, ?_⟩
    simp only [List.nil_append, readLoop, hlen]
    rw [if_neg (by omega)]
    generalize hg0 : dEnd.getD 0 0 = b0 at hgt hne ⊢
    generalize hg1 : dEnd.getD 1 0 = b1 at hgt hne ⊢
    generalize hg2 : dEnd.getD 2 0 = b2 at hkind ⊢
    simp [handlePacket, hne, hkind, endKind, Nat.not_le_of_gt hgt, hgt]
  | cons d pre ih =>
    intro hpre rest c acc
    simp only [List.cons_append, readLoop]
    by_cases hd : d.length < 3
    · rw [if_pos hd]
      exact ih (fun x hx => hpre x (List.mem_cons_of_mem d hx)) rest c acc
    · rw [if_neg hd]
      obtain ⟨hseq, hkd⟩ := hpre d (List.mem_cons_self d pre) (by omega)
      generalize hg0 : d.getD 0 0 = e0 at hseq ⊢
      generalize hg1 : d.getD 1 0 = e1 at hseq ⊢
      generalize hg2 : d.getD 2 0 = e2 at hkd ⊢
      have hstate : (handlePacket st c e0 e1 e2 d.length).state = st := by
        simp [handlePacket, hseq]
      have hdel : (handlePacket st c e0 e1 e2 d.length).delivered = none := by
        simp [handlePacket, hseq]
      have hretry : (handlePacket st c e0 e1 e2 d.length).shouldRetry = true := by
        simp only [endKind] at hkd
        simp only [handlePacket]
        simp [hseq, hkd, endKind]
      rw [hretry]
      simp only [if_true, hdel, hstate, Option.getD_none]
      exact ih (fun x hx => hpre x (List.mem_cons_of_mem d hx)) rest _ _

/-- claim C10 — `read` returns `Ok` with a byte count of 0 as soon as it
processes a (protocol-conformant, 3-byte) END datagram, even when the END's
sequence is above the expected one: the loop exits with count 0, the
expected counter does not advance, and the missing sequences are never
delivered by that call. -/
theorem read_end_of_stream_zero
    (st : RUdpState) (bufLen : Nat) (pre rest : List (List Nat)) (dEnd : List Nat)
    (hbuf : bufLen ≤ 65532)
    (hpre : ∀ d ∈ pre, 3 ≤ d.length →
      d.getD 0 0 * 256 + d.getD 1 0 ≠ st.receivedPacketsCount % 65536 ∧
      d.getD 2 0 ≠ endKind)
    (hlen : dEnd.length = 3) (hkind : dEnd.getD 2 0 = endKind)
    (hgt : st.receivedPacketsCount % 65536 < dEnd.getD 0 0 * 256 + dEnd.getD 1 0) :
    ∃ sends, rudpRead st bufLen (pre ++ dEnd :: rest) =
      .ok (some (st, 0, sends)) := by
  obtain ⟨sends, hs⟩ := readLoop_end_zero st dEnd hlen hkind hgt pre hpre rest false []
  refine ⟨sends, ?_⟩
  simp only [rudpRead]
  rw [if_neg (by omega), hs]

/-- Witness for C10: expecting sequence 0, an out-of-order WRITE (sequence 5)
followed by an END with sequence 2 makes `read` return 0 bytes with the
expected counter still 0. -/
theorem read_end_of_stream_zero_witness :
    ∃ sends, rudpRead ⟨[], 0, 0⟩ 4 ([[0, 5, 0, 9]] ++ [0, 2, 3] :: []) =
      .ok (some (⟨[], 0, 0⟩, 0, sends)) :=
  read_end_of_stream_zero ⟨[], 0, 0⟩ 4 [[0, 5, 0, 9]] [] [0, 2, 3]
    (by decide) (by decide) (by decide) (by decide) (by decide)

/-- Helper: filtering away only elements the search predicate rejects does
not change `find?`. -/
theorem find_filter_of_imp {α : Type} (l : List α) (p f : α → Bool)
    (h : ∀ x, p x = true → f x = true) :
    (l.filter f).find? p = l.find? p := by
  induction l with
  | nil => rfl
  | cons a l ih =>
    by_cases hp : p a = true
    · rw [List.filter_cons_of_pos (h a hp), List.find?_cons_of_pos _ hp,
        List.find?_cons_of_pos _ hp]
    · by_cases hf : f a = true
      · rw [List.filter_cons_of_pos hf, List.find?_cons_of_neg _ hp,
          List.find?_cons_of_neg _ hp, ih]
      · rw [List.filter_cons_of_neg (by simpa using hf), List.find?_cons_of_neg _ hp, ih]

/-- Helper: an inserted key is found, bound to the inserted value. -/
theorem mapLookup_insert_self {κ α : Type} [BEq κ] [LawfulBEq κ]
    (k : κ) (v : α) (m : List (κ × α)) :
    mapLookup k (mapInsert k v m) = some v := by
  unfold mapLookup mapInsert
  rw [List.find?_cons_of_pos _ (by simp)]
  rfl

/-- Helper: an erased key is no longer found. -/
theorem mapLookup_erase_self {κ α : Type} [BEq κ] [LawfulBEq κ]
    (k : κ) (m : List (κ × α)) :
    mapLookup k (mapErase k m) = none := by
  unfold mapLookup mapErase
  rw [List.find?_eq_none.mpr]
  · rfl
  · intro x hx
    have hne := (List.mem_filter.mp hx).2
    simpa using hne

/-- Helper: erasing one key leaves lookups of other keys unchanged. -/
theorem mapLookup_erase_ne {κ α : Type} [BEq κ] [LawfulBEq κ]
    (k q : κ) (m : List (κ × α)) (h : q ≠ k) :
    mapLookup q (mapErase k m) = mapLookup q m := by
  unfold mapLookup mapErase
  rw [find_filter_of_imp]
  intro x hx
  have hx2 : x.1 = q := by simpa using hx
  simp [hx2, h]

/-- Helper: inserting one key leaves lookups of other keys unchanged. -/
theorem mapLookup_insert_ne {κ α : Type} [BEq κ] [LawfulBEq κ]
    (k q : κ) (v : α) (m : List (κ × α)) (h : q ≠ k) :
    mapLookup q (mapInsert k v m) = mapLookup q m := by
  have hstep : mapLookup q ((k, v) :: mapErase k m) = mapLookup q (mapErase k m) := by
    unfold mapLookup
    rw [List.find?_cons_of_neg]
    intro hkq
    exact h (eq_of_beq hkq).symm
  rw [mapInsert, hstep, mapLookup_erase_ne k q m h]

/-- claim C3 counterexample — the relay performs no collision check: with an
offer already live under `alpha-beta-gamma`, an `S2X_RP` whose minted
passphrase collides is admitted without any retry and the stored offer is
silently replaced by the new one, refuting both "the minter retries" and "no
existing offer is ever silently replaced". -/
theorem passphrase_collision_replaces_offer :
    handleSenderRequestPassphrase
        (fun _ => some ⟨200, "two.txt", some "h2", none⟩)
        (some "alpha-beta-gamma") 5 "9.9.9.9:2" []
        [("alpha-beta-gamma", ⟨100, "one.txt", some "h1", none, 1, "1.1.1.1:1"⟩)] =
      ([("alpha-beta-gamma", ⟨200, "two.txt", some "h2", none, 5, "9.9.9.9:2"⟩)],
       .ok [("9.9.9.9:2", .ppm "alpha-beta-gamma")]) ∧
    mapLookup "alpha-beta-gamma"
        [("alpha-beta-gamma",
          (⟨100, "one.txt", some "h1", none, 1, "1.1.1.1:1"⟩ : FileInfo))] =
      some ⟨100, "one.txt", some "h1", none, 1, "1.1.1.1:1"⟩ ∧
    (⟨100, "one.txt", some "h1", none, 1, "1.1.1.1:1"⟩ : FileInfo) ≠
      ⟨200, "two.txt", some "h2", none, 5, "9.9.9.9:2"⟩ := by
  decide

/-- claim C3 (amended) — when handling `S2X_RP`, the minted passphrase is
inserted unconditionally into the relay's map: the map afterwards binds it
to the new offer (replacing any colliding live offer) and every other
passphrase's binding is unchanged; no retry and no collision check take
place. -/
theorem sender_request_inserts_unconditionally
    (parseS2X : List Nat → Option S2XRequestPassphraseMessage)
    (gen : Option String) (p : String) (now : Nat) (addr : String)
    (payload : List Nat) (clientMap : ClientMap)
    (msg : S2XRequestPassphraseMessage)
    (hp : parseS2X payload = some msg) (hg : gen = some p) :
    handleSenderRequestPassphrase parseS2X gen now addr payload clientMap =
      (mapInsert p ⟨msg.fileSize, msg.fileName, msg.fileHash, msg.senderHost, now, addr⟩
        clientMap,
       .ok [(addr, .ppm p)]) ∧
    mapLookup p (mapInsert p
        (⟨msg.fileSize, msg.fileName, msg.fileHash, msg.senderHost, now, addr⟩ : FileInfo)
        clientMap) =
      some ⟨msg.fileSize, msg.fileName, msg.fileHash, msg.senderHost, now, addr⟩ ∧
    (∀ q, q ≠ p →
      mapLookup q (mapInsert p
          (⟨msg.fileSize, msg.fileName, msg.fileHash, msg.senderHost, now, addr⟩ : FileInfo)
          clientMap) =
        mapLookup q clientMap) := by
  refine ⟨?_, mapLookup_insert_self _ _ _, fun q hq => mapLookup_insert_ne _ _ _ _ hq⟩
  simp [handleSenderRequestPassphrase, hp, hg]

/-- Witness for the amended C3: a concrete `S2X_RP` on an empty map. -/
theorem sender_request_inserts_unconditionally_witness :
    handleSenderRequestPassphrase
        (fun _ => some ⟨200, "two.txt", some "h2", none⟩)
        (some "p-q-r") 5 "9.9.9.9:2" [] [] =
      (mapInsert "p-q-r" ⟨200, "two.txt", some "h2", none, 5, "9.9.9.9:2"⟩ [],
       .ok [("9.9.9.9:2", .ppm "p-q-r")]) :=
  (sender_request_inserts_unconditionally
    (fun _ => some ⟨200, "two.txt", some "h2", none⟩) (some "p-q-r") "p-q-r" 5
    "9.9.9.9:2" [] [] ⟨200, "two.txt", some "h2", none⟩ rfl rfl).1

/-- claim C4 — an `R2X_RSC` whose passphrase is live but whose quoted
`file_hash` differs from the stored offer's returns `PassphraseNotFound`
(surfaced by the loop as an `ERROR` reply) and leaves the map unchanged: the
offer stays present under its passphrase. -/
theorem hash_gate_mismatch
    (parseRSC : List Nat → Option R2XRequestSenderConnectionMessage)
    (addr : String) (payload : List Nat) (clientMap : ClientMap)
    (msg : R2XRequestSenderConnectionMessage) (fi : FileInfo)
    (hp : parseRSC payload = some msg)
    (hl : mapLookup msg.passphrase clientMap = some fi)
    (hh : fi.fileHash ≠ msg.fileHash) :
    handleReceiverAccept parseRSC addr payload clientMap =
      (clientMap, .error .passphraseNotFound) ∧
    mapLookup msg.passphrase clientMap = some fi := by
  refine ⟨?_, hl⟩
  simp [handleReceiverAccept, hp, hl, hh]

/-- Witness for C4: a mismatched hash against a one-offer map. -/
theorem hash_gate_mismatch_witness :
    handleReceiverAccept (fun _ => some ⟨"p-q-r", some "hx", none⟩) "3.3.3.3:4" []
        [("p-q-r", ⟨100, "one.txt", some "h1", none, 1, "1.1.1.1:1"⟩)] =
      ([("p-q-r", ⟨100, "one.txt", some "h1", none, 1, "1.1.1.1:1"⟩)],
       .error .passphraseNotFound) :=
  (hash_gate_mismatch (fun _ => some ⟨"p-q-r", some "hx", none⟩) "3.3.3.3:4" []
    [("p-q-r", ⟨100, "one.txt", some "h1", none, 1, "1.1.1.1:1"⟩)]
    ⟨"p-q-r", some "hx", none⟩ ⟨100, "one.txt", some "h1", none, 1, "1.1.1.1:1"⟩
    rfl (by decide) (by decide)).1

/-- claim C5 — after a successful `R2X_RSC` (passphrase live, hashes equal)
the offer is removed, and any subsequent `R2X_RFI` or `R2X_RSC` quoting the
same passphrase on the resulting map yields `PassphraseNotFound` (and leaves
the map as it is), until a new offer is admitted under that passphrase. -/
theorem passphrase_claim_one_shot
    (parseRSC : List Nat → Option R2XRequestSenderConnectionMessage)
    (parseRFI : List Nat → Option R2XRequestFileInfoMessage)
    (parseRSC2 : List Nat → Option R2XRequestSenderConnectionMessage)
    (addr addr2 addr3 : String) (payload payload2 payload3 : List Nat)
    (clientMap : ClientMap)
    (msg : R2XRequestSenderConnectionMessage) (msg2 : R2XRequestFileInfoMessage)
    (msg3 : R2XRequestSenderConnectionMessage) (fi : FileInfo)
    (hp : parseRSC payload = some msg)
    (hl : mapLookup msg.passphrase clientMap = some fi)
    (hh : fi.fileHash = msg.fileHash)
    (hp2 : parseRFI payload2 = some msg2) (hq2 : msg2.passphrase = msg.passphrase)
    (hp3 : parseRSC2 payload3 = some msg3) (hq3 : msg3.passphrase = msg.passphrase) :
    handleReceiverAccept parseRSC addr payload clientMap =
      (mapErase msg.passphrase clientMap,
       .ok [(fi.senderAddr, .scon addr msg.receiverHost)]) ∧
    handleReceiverRequestFileInfo parseRFI addr2 payload2
        (mapErase msg.passphrase clientMap) =
      (mapErase msg.passphrase clientMap, .error .passphraseNotFound) ∧
    handleReceiverAccept parseRSC2 addr3 payload3
        (mapErase msg.passphrase clientMap) =
      (mapErase msg.passphrase clientMap, .error .passphraseNotFound) := by
  have hnone : mapLookup msg.passphrase (mapErase msg.passphrase clientMap) = none :=
    mapLookup_erase_self _ _
  refine ⟨?_, ?_, ?_⟩
  · simp [handleReceiverAccept, hp, hl, hh]
  · simp [handleReceiverRequestFileInfo, hp2, hq2, hnone]
  · simp [handleReceiverAccept, hp3, hq3, hnone]

/-- Witness for C5: re-quoting the passphrase after a successful claim. -/
theorem passphrase_claim_one_shot_witness :
    handleReceiverRequestFileInfo (fun _ => some ⟨"p-q-r"⟩) "4.4.4.4:6" []
        (mapErase "p-q-r" [("p-q-r", ⟨100, "one.txt", some "h1", none, 1, "1.1.1.1:1"⟩)]) =
      (mapErase "p-q-r" [("p-q-r", ⟨100, "one.txt", some "h1", none, 1, "1.1.1.1:1"⟩)],
       .error .passphraseNotFound) :=
  (passphrase_claim_one_shot (fun _ => some ⟨"p-q-r", some "h1", none⟩)
    (fun _ => some ⟨"p-q-r"⟩) (fun _ => some ⟨"p-q-r", some "h1", none⟩)
    "3.3.3.3:4" "4.4.4.4:6" "5.5.5.5:7" [] [] []
    [("p-q-r", ⟨100, "one.txt", some "h1", none, 1, "1.1.1.1:1"⟩)]
    ⟨"p-q-r", some "h1", none⟩ ⟨"p-q-r"⟩ ⟨"p-q-r", some "h1", none⟩
    ⟨100, "one.txt", some "h1", none, 1, "1.1.1.1:1"⟩
    rfl (by decide) rfl rfl rfl rfl rfl).2.1

/-- claim C6 counterexample — a datagram that is not valid UTF-8 (the single
byte `0xFF`) makes handling fail, yet the relay sends nothing back: no
`ERROR` reply is produced (the loop logs and continues), refuting "the relay
sends an ERROR datagram for any handling failure". -/
theorem malformed_utf8_no_error_reply :
    utf8Decode [255] = none ∧
    relayStep (fun _ => none) (fun _ => none) (fun _ => none) none 0 "7.7.7.7:9"
        [255] [] =
      ⟨[], [], true⟩ := by
  decide

/-- claim C6 (amended) — a datagram that is not valid UTF-8 is skipped with
no reply and the loop continues; for a datagram that decodes as UTF-8 and
whose handling fails with a reported error (unknown tag, malformed JSON,
unknown passphrase, hash mismatch, passphrase generation failure), the relay
sends exactly one `ERROR <reason>\n` datagram to the originating endpoint
and the loop continues; successful handling also continues the loop. -/
theorem relay_error_reply
    (parseS2X : List Nat → Option S2XRequestPassphraseMessage)
    (parseRFI : List Nat → Option R2XRequestFileInfoMessage)
    (parseRSC : List Nat → Option R2XRequestSenderConnectionMessage)
    (gen : Option String) (now : Nat) (addr : String)
    (bytes : List Nat) (clientMap : ClientMap) :
    (utf8Decode bytes = none →
      relayStep parseS2X parseRFI parseRSC gen now addr bytes clientMap =
        ⟨clientMap, [], true⟩) ∧
    (∀ m e, utf8Decode bytes ≠ none →
      handleMessage parseS2X parseRFI parseRSC gen now addr bytes clientMap =
        (m, .failed e) →
      relayStep parseS2X parseRFI parseRSC gen now addr bytes clientMap =
        ⟨m, [(addr, .errorReply ("ERROR " ++ errString e ++ "\n"))], true⟩) ∧
    (∀ m s, utf8Decode bytes ≠ none →
      handleMessage parseS2X parseRFI parseRSC gen now addr bytes clientMap =
        (m, .sent s) →
      relayStep parseS2X parseRFI parseRSC gen now addr bytes clientMap =
        ⟨m, s, true⟩) := by
  refine ⟨?_, ?_, ?_⟩
  · intro h
    simp [relayStep, h]
  · intro m e hne hh
    rcases hu : utf8Decode bytes with _ | cps
    · exact absurd hu hne
    · simp [relayStep, hu, hh]
  · intro m s hne hh
    rcases hu : utf8Decode bytes with _ | cps
    · exact absurd hu hne
    · simp [relayStep, hu, hh]

/-- Witness for the amended C6: the single byte `Z` (valid UTF-8, unknown
tag) draws the `ERROR Unknown command` reply and the loop stays alive. -/
theorem relay_error_reply_witness :
    relayStep (fun _ => none) (fun _ => none) (fun _ => none) none 0 "2.2.2.2:5"
        [90] [] =
      ⟨[], [("2.2.2.2:5", .errorReply ("ERROR " ++ errString .unknownCommand ++ "\n"))],
        true⟩ :=
  (relay_error_reply (fun _ => none) (fun _ => none) (fun _ => none) none 0
    "2.2.2.2:5" [90] []).2.1 [] .unknownCommand (by decide) (by decide)

/-- claim C8 — evaluation of the hole-punch sleep computation of
`init_socket` in `utils/mod.rs`: at an elapsed send time of 51 ms the `u64`
subtraction `50 - elapsed` wraps to `2^64 - 1` (release mode; a debug build
panics on the overflow), so the sleep is not bounded by 50 ms as claimed;
at or below 50 ms it behaves as intended. -/
theorem init_socket_sleep_wraps :
    initSocketSleepMs 0 = 50 ∧ initSocketSleepMs 50 = 0 ∧
    initSocketSleepMs 51 = 2 ^ 64 - 1 ∧ ¬ initSocketSleepMs 51 ≤ 50 := by
  refine ⟨by decide, by decide, by decide, by decide⟩

/-- Helper: `split` never yields an empty list of segments. -/
theorem splitSlash_ne_nil (s : List Char) : splitSlash s ≠ [] := by
  cases s with
  | nil => simp [splitSlash]
  | cons c rest =>
    cases h : splitSlash rest with
    | nil => simp [splitSlash, h]
    | cons seg segs =>
      simp only [splitSlash, h]
      split <;> simp

/-- Helper: a string without `/` is a single segment. -/
theorem splitSlash_no_slash (s : List Char) (h : '/' ∉ s) : splitSlash s = [s] := by
  induction s with
  | nil => rfl
  | cons c rest ih =>
    have hc : c ≠ '/' := fun hh => h (by simp [hh])
    have hr : '/' ∉ rest := fun hh => h (List.mem_cons_of_mem _ hh)
    simp only [splitSlash, ih hr]
    simp [hc]

/-- Helper: a string containing `/` splits into at least two segments. -/
theorem splitSlash_length_of_mem (s : List Char) (h : '/' ∈ s) :
    2 ≤ (splitSlash s).length := by
  induction s with
  | nil => simp at h
  | cons c rest ih =>
    by_cases hc : c = '/'
    · cases hsp : splitSlash rest with
      | nil => exact absurd hsp (splitSlash_ne_nil rest)
      | cons seg segs => simp [splitSlash, hsp, hc]
    · have hr : '/' ∈ rest := by
        rcases List.mem_cons.mp h with h1 | h2
        · exact absurd h1.symm hc
        · exact h2
      cases hsp : splitSlash rest with
      | nil => exact absurd hsp (splitSlash_ne_nil rest)
      | cons seg segs =>
        have h2 := ih hr
        rw [hsp] at h2
        simp only [splitSlash, hsp]
        rw [if_neg hc]
        simpa using h2

/-- Helper: a leading character before a later `/` does not change the last
segment. -/
theorem lastSegment_cons_of_mem (c : Char) (s : List Char) (h : '/' ∈ s) :
    lastSegment (c :: s) = lastSegment s := by
  cases hsp : splitSlash s with
  | nil => exact absurd hsp (splitSlash_ne_nil s)
  | cons seg segs =>
    cases segs with
    | nil =>
      have h2 := splitSlash_length_of_mem s h
      rw [hsp] at h2
      simp at h2
    | cons s2 segs2 =>
      unfold lastSegment
      simp only [splitSlash, hsp]
      by_cases hc : c = '/'
      · rw [if_pos hc, List.getLast?_cons_cons]
      · rw [if_neg hc, List.getLast?_cons_cons, List.getLast?_cons_cons]

/-- Helper: the last segment of `a ++ "/" ++ b` with `/` not in `b` is `b`. -/
theorem lastSegment_append (a b : List Char) (hb : '/' ∉ b) :
    lastSegment (a ++ '/' :: b) = b := by
  induction a with
  | nil =>
    simp only [List.nil_append]
    unfold lastSegment
    simp only [splitSlash, splitSlash_no_slash b hb]
    simp
  | cons c a2 ih =>
    have hmem : '/' ∈ a2 ++ '/' :: b := by simp
    rw [List.cons_append, lastSegment_cons_of_mem c _ hmem, ih]

/-- claim C9 — when `--out-file` is omitted the chosen output path is the
substring of `file_name` after its last `/` (the whole name when there is no
`/`); in particular `../evil` maps to `evil` and `/etc/passwd` to `passwd`. -/
theorem out_file_defaults_to_last_segment :
    (∀ (a b : List Char), '/' ∉ b → lastSegment (a ++ '/' :: b) = b) ∧
    (∀ s : List Char, '/' ∉ s → lastSegment s = s) ∧
    chosenOutFileName none "../evil" = "evil" ∧
    chosenOutFileName none "/etc/passwd" = "passwd" := by
  refine ⟨lastSegment_append, ?_, by decide, by decide⟩
  intro s hs
  unfold lastSegment
  rw [splitSlash_no_slash s hs]
  rfl

/-- Witness for C9: the last segment of `a/bc` is `bc`. -/
theorem out_file_defaults_to_last_segment_witness :
    ('/' ∉ (['b', 'c'] : List Char)) ∧
    lastSegment ((['a'] : List Char) ++ '/' :: ['b', 'c']) = ['b', 'c'] :=
  ⟨by decide, out_file_defaults_to_last_segment.1 ['a'] ['b', 'c'] (by decide)⟩

end Nudge
